import Mathlib

/-!
Shallow embedding of `registrable/__init__.py`: a per-base-type registry of
named implementations with registration hooks, override semantics, dotted-path
fallback resolution with memoization, and default-implementation ordering.

Python type objects are modelled as `Value`s carrying an identity and a
`__name__`.  The dynamic environment (which values are classes, the subclass
relation, and the module loader used by `importlib.import_module`) is an
explicit `Env`.  A base type's namespace (`Registrable._registry[cls]`, a
Python dict) is an insertion-ordered association list: updating an existing
key keeps its position, a new key is appended, matching CPython dict
semantics.  Effects are made explicit: emitted warnings and hook invocations
are returned as traces, and each distinct `RegistrationError` raise site is a
constructor of `RegError` carrying the data of its message.
-/

namespace Registrable

/-- A Python type object: an identity plus its `__name__`. -/
structure Value where
  id : Nat
  pyName : String
  deriving DecidableEq, Repr

/-- A registration hook: a callable taking `(subclass, name)`.  `run` returns
`some msg` when the hook raises an exception with message `msg`, `none` when
it returns normally.  The `id` identifies the callable in invocation traces. -/
structure Hook where
  id : Nat
  run : Value → String → Option String

/-- The dynamic environment: `inspect.isclass`, `issubclass`, and the module
loader.  `importModule p` is `none` when `importlib.import_module p` raises
`ModuleNotFoundError`, otherwise the loaded module's attribute table. -/
structure Env where
  isclass : Value → Bool
  issubclass : Value → Value → Bool
  importModule : String → Option (List (String × Value))

/-- A base type's namespace: insertion-ordered `name -> implementation`. -/
abbrev RegistryNS := List (String × Value)

/-- Dict key lookup: `registry[name]` / `name in registry`. -/
def nsLookup : RegistryNS → String → Option Value
  | [], _ => none
  | (k, v) :: rest, key => if k = key then some v else nsLookup rest key

/-- Dict assignment `registry[name] = subclass`: replaces in place when the
key exists (keeping its position), otherwise appends, as CPython dicts do. -/
def nsSet : RegistryNS → String → Value → RegistryNS
  | [], key, v => [(key, v)]
  | (k, w) :: rest, key, v =>
    if k = key then (key, v) :: rest else (k, w) :: nsSet rest key v

/-- The distinct `RegistrationError` raise sites, tagged per the error
taxonomy, each carrying the names its message mentions. -/
inductive RegError where
  | duplicateRegistration (subName name existingName : String)
  | invalidImplementation (offender base : String)
  | moduleResolutionError (name submodule : String)
  | memberResolutionError (name className submodule : String)
  | nameNotFound (name baseName : String)
  | missingDefault (defaultName : String)
  deriving DecidableEq, Repr

/-- What a `register` call can raise: a `RegistrationError`, or an exception
escaping from a hook (identified by the hook and its message). -/
inductive RegFailure where
  | regError (e : RegError)
  | hookExc (hookId : Nat) (msg : String)
  deriving DecidableEq, Repr

/-- `for hook in hooks: hook(subclass, name)`: returns the ids of the hooks
that were invoked, and the first exception raised (which aborts the loop). -/
def runHooks : List Hook → Value → String → List Nat × Option (Nat × String)
  | [], _, _ => ([], none)
  | h :: hs, subclass, name =>
    match h.run subclass name with
    | some msg => ([h.id], some (h.id, msg))
    | none =>
      let rest := runHooks hs subclass name
      (h.id :: rest.1, rest.2)

/-- Full observable outcome of a `register(...)(subclass)` call: the returned
value or propagated exception, the namespace afterwards, the warnings emitted,
and the trace of hook invocations. -/
structure RegOutcome where
  result : Except RegFailure Value
  registry : RegistryNS
  warnings : List String
  hookCalls : List Nat

/-- The tail of `add_subclass_to_registry` after the validation and duplicate
checks: store the entry, then run default hooks followed by per-call hooks. -/
def commit (name : String) (defaultHooks hooks : List Hook)
    (registry : RegistryNS) (subclass : Value) (warnings : List String) :
    RegOutcome :=
  let registry2 := nsSet registry name subclass
  let hr := runHooks (defaultHooks ++ hooks) subclass name
  match hr.2 with
  | some exc =>
    { result := .error (.hookExc exc.1 exc.2), registry := registry2,
      warnings := warnings, hookCalls := hr.1 }
  | none =>
    { result := .ok subclass, registry := registry2,
      warnings := warnings, hookCalls := hr.1 }

/-- `Registrable.register(name, override, hooks)` applied to `subclass`, i.e.
the body of `add_subclass_to_registry`.  `defaultHooks` is `cls._hooks or []`
and `registry` is `Registrable._registry[cls]` at call time. -/
def register (env : Env) (cls : Value) (name : String) (override : Bool)
    (hooks defaultHooks : List Hook) (registry : RegistryNS)
    (subclass : Value) : RegOutcome :=
  if !(env.isclass subclass) || !(env.issubclass subclass cls) then
    { result := .error (.regError (.invalidImplementation subclass.pyName cls.pyName)),
      registry := registry, warnings := [], hookCalls := [] }
  else
    match nsLookup registry name with
    | some existing =>
      if !override then
        { result := .error (.regError
            (.duplicateRegistration subclass.pyName name existing.pyName)),
          registry := registry, warnings := [], hookCalls := [] }
      else
        commit name defaultHooks hooks registry subclass
          ["Overriding " ++ name ++ " in " ++ cls.pyName ++ " registry"]
    | none =>
      commit name defaultHooks hooks registry subclass []

/-- `name.split(".")` on the underlying characters: Python `str.split` with
the single-character separator `"."`.  Always returns a non-empty list; on
the empty string it returns `[""]`, and consecutive separators yield empty
pieces, exactly as in Python. -/
def splitDot : List Char → List String
  | [] => [""]
  | c :: rest =>
    if c = '.' then "" :: splitDot rest
    else
      match splitDot rest with
      | [] => [String.mk [c]]
      | p :: ps => String.mk (c :: p.data) :: ps

/-- Python `"." in name`. -/
def containsDot (name : String) : Bool :=
  name.data.contains '.'

/-- `submodule = ".".join(name.split(".")[:-1])`. -/
def submodOf (name : String) : String :=
  String.intercalate "." (splitDot name.data).dropLast

/-- `class_name = name.split(".")[-1]`. -/
def classNameOf (name : String) : String :=
  (splitDot name.data).getLastD ""

/-- Full observable outcome of a `by_name` call: the returned implementation
or raised error, the namespace afterwards, and the trace of hook invocations
(the source never invokes a hook on this path). -/
structure LookupOutcome where
  result : Except RegError Value
  registry : RegistryNS
  hookCalls : List Nat
  deriving Repr

/-- `Registrable.by_name(name)`: exact lookup first; otherwise, when `name`
contains a `"."`, split it into module path and class name, import the
module, fetch the member, check it is a conforming class, and memoize it in
the namespace under `name`; otherwise raise. -/
def by_name (env : Env) (cls : Value) (registry : RegistryNS) (name : String) :
    LookupOutcome :=
  match nsLookup registry name with
  | some v => { result := .ok v, registry := registry, hookCalls := [] }
  | none =>
    if containsDot name then
      let submodule := submodOf name
      let class_name := classNameOf name
      match env.importModule submodule with
      | none =>
        { result := .error (.moduleResolutionError name submodule),
          registry := registry, hookCalls := [] }
      | some module =>
        match nsLookup module class_name with
        | none =>
          { result := .error (.memberResolutionError name class_name submodule),
            registry := registry, hookCalls := [] }
        | some maybe_subclass =>
          if !(env.isclass maybe_subclass) || !(env.issubclass maybe_subclass cls) then
            { result := .error (.invalidImplementation class_name cls.pyName),
              registry := registry, hookCalls := [] }
          else
            { result := .ok maybe_subclass,
              registry := nsSet registry name maybe_subclass, hookCalls := [] }
    else
      { result := .error (.nameNotFound name cls.pyName),
        registry := registry, hookCalls := [] }

/-- `Registrable.list_available()`, given the base type's namespace and its
`default_implementation` attribute. -/
def list_available (registry : RegistryNS)
    (default_implementation : Option String) :
    Except RegError (List String) :=
  let keys := registry.map Prod.fst
  match default_implementation with
  | none => .ok keys
  | some d =>
    if keys.contains d then
      .ok (d :: keys.filter (fun k => k ≠ d))
    else
      .error (.missingDefault d)

/-- `Registrable.is_registered(name)`. -/
def is_registered (registry : RegistryNS) (name : String) : Bool :=
  (nsLookup registry name).isSome

/-- `Registrable.iter_registered()`: the namespace's items in order. -/
def iter_registered (registry : RegistryNS) : List (String × Value) :=
  registry

/-! ### Helper lemmas -/

@[simp]
theorem nsLookup_nsSet_self (registry : RegistryNS) (key : String) (v : Value) :
    nsLookup (nsSet registry key v) key = some v := by
  induction registry with
  | nil => simp [nsSet, nsLookup]
  | cons p rest ih =>
    by_cases h : p.1 = key
    · simp [nsSet, nsLookup, h]
    · simp [nsSet, nsLookup, h, ih]

theorem runHooks_none_calls (hooks : List Hook) (subclass : Value) (name : String)
    (h : (runHooks hooks subclass name).2 = none) :
    (runHooks hooks subclass name).1 = hooks.map Hook.id := by
  induction hooks with
  | nil => simp [runHooks]
  | cons hk rest ih =>
    cases hr : hk.run subclass name with
    | some msg => simp [runHooks, hr] at h
    | none =>
      simp only [runHooks, hr] at h ⊢
      simp [ih h]

theorem commit_registry (name : String) (defaultHooks hooks : List Hook)
    (registry : RegistryNS) (subclass : Value) (warnings : List String) :
    (commit name defaultHooks hooks registry subclass warnings).registry =
      nsSet registry name subclass := by
  rcases hm : (runHooks (defaultHooks ++ hooks) subclass name).2 with _ | exc <;>
    simp [commit, hm]

theorem commit_warnings (name : String) (defaultHooks hooks : List Hook)
    (registry : RegistryNS) (subclass : Value) (warnings : List String) :
    (commit name defaultHooks hooks registry subclass warnings).warnings =
      warnings := by
  rcases hm : (runHooks (defaultHooks ++ hooks) subclass name).2 with _ | exc <;>
    simp [commit, hm]

theorem commit_ok (name : String) (defaultHooks hooks : List Hook)
    (registry : RegistryNS) (subclass : Value) (warnings : List String)
    (r : Value)
    (h : (commit name defaultHooks hooks registry subclass warnings).result = .ok r) :
    r = subclass := by
  rcases hm : (runHooks (defaultHooks ++ hooks) subclass name).2 with _ | exc <;>
    simp [commit, hm] at h
  · exact h.symm

/-- On a success, `register` went through `commit`: the result value is the
subclass and the registry afterwards has the subclass stored under `name`. -/
theorem register_ok_characterize (env : Env) (cls : Value) (name : String)
    (override : Bool) (hooks defaultHooks : List Hook) (registry : RegistryNS)
    (subclass r : Value)
    (h : (register env cls name override hooks defaultHooks registry subclass).result =
      .ok r) :
    r = subclass ∧
    (register env cls name override hooks defaultHooks registry subclass).registry =
      nsSet registry name subclass := by
  by_cases hc : (!(env.isclass subclass) || !(env.issubclass subclass cls)) = true
  · simp [register, hc] at h
  · cases hl : nsLookup registry name with
    | some existing =>
      by_cases ho : override = true
      · have hreg : register env cls name override hooks defaultHooks registry subclass =
            commit name defaultHooks hooks registry subclass
              ["Overriding " ++ name ++ " in " ++ cls.pyName ++ " registry"] := by
          simp [register, hc, hl, ho]
        rw [hreg] at h ⊢
        exact ⟨commit_ok _ _ _ _ _ _ _ h, commit_registry _ _ _ _ _ _⟩
      · simp only [Bool.not_eq_true] at ho
        simp [register, hc, hl, ho] at h
    | none =>
      have hreg : register env cls name override hooks defaultHooks registry subclass =
          commit name defaultHooks hooks registry subclass [] := by
        simp [register, hc, hl]
      rw [hreg] at h ⊢
      exact ⟨commit_ok _ _ _ _ _ _ _ h, commit_registry _ _ _ _ _ _⟩

theorem by_name_hit (env : Env) (cls : Value) (registry : RegistryNS)
    (name : String) (v : Value) (h : nsLookup registry name = some v) :
    by_name env cls registry name =
      { result := .ok v, registry := registry, hookCalls := [] } := by
  simp [by_name, h]

/-! ### Concrete values used by witnesses -/

/-- A concrete base type object. -/
def baseV : Value := ⟨0, "Base"⟩

/-- A concrete conforming implementation type object. -/
def implV : Value := ⟨1, "Impl"⟩

/-- A second concrete implementation type object. -/
def implW : Value := ⟨2, "Impl2"⟩

/-- An environment where every value is a class and a subclass of anything,
and no module is importable. -/
def envAll : Env :=
  { isclass := fun _ => true, issubclass := fun _ _ => true,
    importModule := fun _ => none }

/-- An environment where no value is a class. -/
def envNone : Env :=
  { isclass := fun _ => false, issubclass := fun _ _ => true,
    importModule := fun _ => none }

/-! ### Claim theorems -/

/-- C1: if `register(name)(impl)` completes without error then afterwards
`is_registered name` is true, `by_name name` returns exactly `impl` (without
touching the namespace), and the register call itself returned `impl`
unchanged. -/
theorem register_success_spec (env : Env) (cls : Value) (name : String)
    (override : Bool) (hooks defaultHooks : List Hook) (registry : RegistryNS)
    (impl r : Value)
    (h : (register env cls name override hooks defaultHooks registry impl).result =
      .ok r) :
    r = impl ∧
    is_registered
      (register env cls name override hooks defaultHooks registry impl).registry
      name = true ∧
    (by_name env cls
      (register env cls name override hooks defaultHooks registry impl).registry
      name).result = .ok impl ∧
    (by_name env cls
      (register env cls name override hooks defaultHooks registry impl).registry
      name).registry =
      (register env cls name override hooks defaultHooks registry impl).registry := by
  obtain ⟨h1, h2⟩ :=
    register_ok_characterize env cls name override hooks defaultHooks registry impl r h
  rw [h2]
  refine ⟨h1, ?_, ?_, ?_⟩
  · simp [is_registered]
  · simp [by_name]
  · simp [by_name]

/-- Witness for C1 at a concrete successful registration. -/
theorem register_success_spec_witness :
    (register envAll baseV "impl" false [] [] [] implV).result = .ok implV ∧
    (implV = implV ∧
     is_registered
       (register envAll baseV "impl" false [] [] [] implV).registry "impl" = true ∧
     (by_name envAll baseV
       (register envAll baseV "impl" false [] [] [] implV).registry "impl").result =
       .ok implV ∧
     (by_name envAll baseV
       (register envAll baseV "impl" false [] [] [] implV).registry "impl").registry =
       (register envAll baseV "impl" false [] [] [] implV).registry) :=
  ⟨rfl, register_success_spec envAll baseV "impl" false [] [] [] implV implV rfl⟩

/-- C6: a candidate that is not a class or not a subclass of the base type is
rejected with the invalid-implementation error naming the candidate and the
base; this happens whatever the namespace holds (so before the duplicate
check), no hook runs, no warning is emitted, and the namespace is unchanged. -/
theorem register_invalid_spec (env : Env) (cls : Value) (name : String)
    (override : Bool) (hooks defaultHooks : List Hook) (registry : RegistryNS)
    (impl : Value)
    (h : (env.isclass impl && env.issubclass impl cls) = false) :
    register env cls name override hooks defaultHooks registry impl =
      { result := .error (.regError (.invalidImplementation impl.pyName cls.pyName)),
        registry := registry, warnings := [], hookCalls := [] } := by
  have hc : (!(env.isclass impl) || !(env.issubclass impl cls)) = true := by
    rw [← Bool.not_and]
    simp [h]
  simp [register, hc]

/-- Witness for C6 at a concrete non-conforming candidate, with the name
already occupied in the namespace (showing the check precedes the duplicate
check). -/
theorem register_invalid_spec_witness :
    (envNone.isclass implW && envNone.issubclass implW baseV) = false ∧
    register envNone baseV "impl" false [] [] [("impl", implV)] implW =
      { result := .error (.regError (.invalidImplementation "Impl2" "Base")),
        registry := [("impl", implV)], warnings := [], hookCalls := [] } :=
  ⟨rfl, register_invalid_spec envNone baseV "impl" false [] [] [("impl", implV)]
    implW rfl⟩

/-- An environment that can import the module `"pkg.mod"`, whose attribute
table holds `Impl` under `"Impl"`. -/
def envMod : Env :=
  { isclass := fun _ => true, issubclass := fun _ _ => true,
    importModule := fun p =>
      if p = "pkg.mod" then some [("Impl", implV)] else none }

/-- C2: for a name with no exact entry that contains a `.`, when the module
path (everything before the last separator) loads, the member (the part after
the last separator) is present and conforming, `by_name` returns the member
and memoizes it under the exact lookup string; afterwards `is_registered` is
true and a repeated `by_name` answers from the registry (under any
environment, i.e. without re-loading). -/
theorem by_name_fallback_spec (env : Env) (cls : Value) (registry : RegistryNS)
    (name : String) (modAttrs : List (String × Value)) (m : Value)
    (h1 : nsLookup registry name = none)
    (h2 : containsDot name = true)
    (h3 : env.importModule (submodOf name) = some modAttrs)
    (h4 : nsLookup modAttrs (classNameOf name) = some m)
    (h5 : env.isclass m = true)
    (h6 : env.issubclass m cls = true) :
    by_name env cls registry name =
      { result := .ok m, registry := nsSet registry name m, hookCalls := [] } ∧
    is_registered (nsSet registry name m) name = true ∧
    ∀ env2 : Env, by_name env2 cls (nsSet registry name m) name =
      { result := .ok m, registry := nsSet registry name m, hookCalls := [] } := by
  refine ⟨?_, ?_, ?_⟩
  · simp [by_name, h1, h2, h3, h4, h5, h6]
  · simp [is_registered]
  · intro env2
    exact by_name_hit env2 cls _ name m (nsLookup_nsSet_self _ _ _)

/-- Witness for C2: resolving `"pkg.mod.Impl"` from an empty namespace, then
looking it up again under an environment that cannot import anything. -/
theorem by_name_fallback_spec_witness :
    nsLookup [] "pkg.mod.Impl" = none ∧
    containsDot "pkg.mod.Impl" = true ∧
    envMod.importModule (submodOf "pkg.mod.Impl") = some [("Impl", implV)] ∧
    nsLookup [("Impl", implV)] (classNameOf "pkg.mod.Impl") = some implV ∧
    envMod.isclass implV = true ∧
    envMod.issubclass implV baseV = true ∧
    by_name envMod baseV [] "pkg.mod.Impl" =
      { result := .ok implV, registry := nsSet [] "pkg.mod.Impl" implV,
        hookCalls := [] } ∧
    is_registered (nsSet [] "pkg.mod.Impl" implV) "pkg.mod.Impl" = true ∧
    by_name envAll baseV (nsSet [] "pkg.mod.Impl" implV) "pkg.mod.Impl" =
      { result := .ok implV, registry := nsSet [] "pkg.mod.Impl" implV,
        hookCalls := [] } := by
  have h := by_name_fallback_spec envMod baseV [] "pkg.mod.Impl"
    [("Impl", implV)] implV rfl (by decide) (by decide) (by decide) rfl rfl
  exact ⟨rfl, by decide, by decide, by decide, rfl, rfl, h.1, h.2.1, h.2.2 envAll⟩

/-- An environment that can import `"pkg.mod"` but where no value is a
class. -/
def envModNotClass : Env :=
  { isclass := fun _ => false, issubclass := fun _ _ => true,
    importModule := fun p =>
      if p = "pkg.mod" then some [("Impl", implV)] else none }

/-- C4: the failure cases of `by_name` for a name with no exact entry: with a
separator, an unloadable module path gives the module-resolution error naming
the path, a missing member gives the member-resolution error naming member
and path, a non-conforming member gives the invalid-implementation error;
without a separator, the name-not-found error names the lookup name and the
base type. -/
theorem by_name_failure_taxonomy (env : Env) (cls : Value)
    (registry : RegistryNS) (name : String)
    (hmiss : nsLookup registry name = none) :
    (containsDot name = true →
      (env.importModule (submodOf name) = none →
        (by_name env cls registry name).result =
          .error (.moduleResolutionError name (submodOf name))) ∧
      (∀ modAttrs, env.importModule (submodOf name) = some modAttrs →
        (nsLookup modAttrs (classNameOf name) = none →
          (by_name env cls registry name).result =
            .error (.memberResolutionError name (classNameOf name) (submodOf name))) ∧
        (∀ m, nsLookup modAttrs (classNameOf name) = some m →
          (env.isclass m && env.issubclass m cls) = false →
          (by_name env cls registry name).result =
            .error (.invalidImplementation (classNameOf name) cls.pyName)))) ∧
    (containsDot name = false →
      (by_name env cls registry name).result =
        .error (.nameNotFound name cls.pyName)) := by
  constructor
  · intro hdot
    constructor
    · intro hmod
      simp [by_name, hmiss, hdot, hmod]
    · intro modAttrs hmod
      constructor
      · intro hattr
        simp [by_name, hmiss, hdot, hmod, hattr]
      · intro m hattr hconf
        have hc : (!(env.isclass m) || !(env.issubclass m cls)) = true := by
          rw [← Bool.not_and]
          simp [hconf]
        simp [by_name, hmiss, hdot, hmod, hattr, hc]
  · intro hdot
    simp [by_name, hmiss, hdot]

/-- Witness for C4: the four failure shapes at concrete inputs:
`"pkg.nomod.X"` (module not importable under `envMod`), `"pkg.mod.Absent"`
(member missing from the module), `"pkg.mod.Impl"` under `envNone` (member
present but not a class), and `"plain"` (no separator). -/
theorem by_name_failure_taxonomy_witness :
    (by_name envMod baseV [] "pkg.nomod.X").result =
      .error (.moduleResolutionError "pkg.nomod.X" "pkg.nomod") ∧
    (by_name envMod baseV [] "pkg.mod.Absent").result =
      .error (.memberResolutionError "pkg.mod.Absent" "Absent" "pkg.mod") ∧
    (by_name envModNotClass baseV [] "pkg.mod.Impl").result =
      .error (.invalidImplementation "Impl" "Base") ∧
    (by_name envAll baseV [] "plain").result =
      .error (.nameNotFound "plain" "Base") := by
  refine ⟨?_, ?_, ?_, ?_⟩
  · have h := (by_name_failure_taxonomy envMod baseV [] "pkg.nomod.X" rfl).1
      (by decide)
    have := h.1 (by decide)
    simpa using this
  · have h := ((by_name_failure_taxonomy envMod baseV [] "pkg.mod.Absent" rfl).1
      (by decide)).2 [("Impl", implV)] (by decide)
    have := h.1 (by decide)
    simpa using this
  · have h := ((by_name_failure_taxonomy envModNotClass baseV [] "pkg.mod.Impl"
      rfl).1 (by decide)).2 [("Impl", implV)] (by decide)
    have := h.2 implV (by decide) rfl
    simpa using this
  · have := (by_name_failure_taxonomy envAll baseV [] "plain" rfl).2 (by decide)
    simpa using this

/-- C10: whenever `by_name` fails, the namespace is unchanged, the failed
name is still unregistered afterwards, and `list_available` answers the same
as before the failed lookup. -/
theorem by_name_failure_frame (env : Env) (cls : Value) (registry : RegistryNS)
    (name : String) (e : RegError)
    (h : (by_name env cls registry name).result = .error e) :
    (by_name env cls registry name).registry = registry ∧
    is_registered registry name = false ∧
    is_registered (by_name env cls registry name).registry name = false ∧
    ∀ d : Option String,
      list_available (by_name env cls registry name).registry d =
        list_available registry d := by
  have hkey : ∀ v, nsLookup registry name = some v → False := by
    intro v hv
    rw [by_name_hit env cls registry name v hv] at h
    simp at h
  have hmiss : nsLookup registry name = none := by
    cases hl : nsLookup registry name with
    | none => rfl
    | some v => exact absurd hl (fun hv => hkey v hv)
  have hreg : (by_name env cls registry name).registry = registry := by
    by_cases hdot : containsDot name = true
    · cases hmod : env.importModule (submodOf name) with
      | none => simp [by_name, hmiss, hdot, hmod]
      | some modAttrs =>
        cases hattr : nsLookup modAttrs (classNameOf name) with
        | none => simp [by_name, hmiss, hdot, hmod, hattr]
        | some m =>
          by_cases hc : (!(env.isclass m) || !(env.issubclass m cls)) = true
          · simp [by_name, hmiss, hdot, hmod, hattr, hc]
          · exfalso
            simp [by_name, hmiss, hdot, hmod, hattr, hc] at h
    · simp only [Bool.not_eq_true] at hdot
      simp [by_name, hmiss, hdot]
  refine ⟨hreg, ?_, ?_, ?_⟩
  · simp [is_registered, hmiss]
  · rw [hreg]
    simp [is_registered, hmiss]
  · intro d
    rw [hreg]

/-- Witness for C10 at a concrete failing lookup over a non-empty
namespace. -/
theorem by_name_failure_frame_witness :
    (by_name envAll baseV [("other", implW)] "missing").result =
      .error (.nameNotFound "missing" "Base") ∧
    (by_name envAll baseV [("other", implW)] "missing").registry =
      [("other", implW)] ∧
    is_registered [("other", implW)] "missing" = false ∧
    is_registered (by_name envAll baseV [("other", implW)] "missing").registry
      "missing" = false ∧
    list_available (by_name envAll baseV [("other", implW)] "missing").registry
      none = list_available [("other", implW)] none := by
  have h := by_name_failure_frame envAll baseV [("other", implW)] "missing"
    (.nameNotFound "missing" "Base") rfl
  exact ⟨rfl, h.1, h.2.1, h.2.2.1, h.2.2.2 none⟩

/-- C3: for a name already in the namespace and a conforming candidate,
registering again with `override = false` fails with the duplicate error
naming the existing occupant and leaves the namespace unchanged; with
`override = true` it emits exactly the one override warning, replaces the
entry, and `by_name` thereafter returns the new implementation. -/
theorem register_duplicate_override_spec (env : Env) (cls : Value)
    (name : String) (hooks defaultHooks : List Hook) (registry : RegistryNS)
    (existing impl2 : Value)
    (hin : nsLookup registry name = some existing)
    (hc : env.isclass impl2 = true) (hsub : env.issubclass impl2 cls = true) :
    register env cls name false hooks defaultHooks registry impl2 =
      { result := .error (.regError
          (.duplicateRegistration impl2.pyName name existing.pyName)),
        registry := registry, warnings := [], hookCalls := [] } ∧
    (register env cls name true hooks defaultHooks registry impl2).warnings =
      ["Overriding " ++ name ++ " in " ++ cls.pyName ++ " registry"] ∧
    (register env cls name true hooks defaultHooks registry impl2).registry =
      nsSet registry name impl2 ∧
    (by_name env cls
      (register env cls name true hooks defaultHooks registry impl2).registry
      name).result = .ok impl2 := by
  have hcond : (!(env.isclass impl2) || !(env.issubclass impl2 cls)) = false := by
    simp [hc, hsub]
  have hov : register env cls name true hooks defaultHooks registry impl2 =
      commit name defaultHooks hooks registry impl2
        ["Overriding " ++ name ++ " in " ++ cls.pyName ++ " registry"] := by
    simp [register, hcond, hin]
  refine ⟨?_, ?_, ?_, ?_⟩
  · simp [register, hcond, hin]
  · rw [hov, commit_warnings]
  · rw [hov, commit_registry]
  · rw [hov, commit_registry]
    simp [by_name]

/-- Witness for C3: `"impl"` holds `Impl`; re-registering `Impl2` without
override fails naming `Impl`, and with override replaces it. -/
theorem register_duplicate_override_spec_witness :
    nsLookup [("impl", implV)] "impl" = some implV ∧
    envAll.isclass implW = true ∧
    envAll.issubclass implW baseV = true ∧
    register envAll baseV "impl" false [] [] [("impl", implV)] implW =
      { result := .error (.regError
          (.duplicateRegistration "Impl2" "impl" "Impl")),
        registry := [("impl", implV)], warnings := [], hookCalls := [] } ∧
    (register envAll baseV "impl" true [] [] [("impl", implV)] implW).warnings =
      ["Overriding impl in Base registry"] ∧
    (register envAll baseV "impl" true [] [] [("impl", implV)] implW).registry =
      nsSet [("impl", implV)] "impl" implW ∧
    (by_name envAll baseV
      (register envAll baseV "impl" true [] [] [("impl", implV)] implW).registry
      "impl").result = .ok implW := by
  have h := register_duplicate_override_spec envAll baseV "impl" [] []
    [("impl", implV)] implV implW rfl rfl rfl
  exact ⟨rfl, rfl, rfl, h.1, h.2.1, h.2.2.1, h.2.2.2⟩

/-- C5: with no default implementation set, `list_available` returns the
registered names in registration order; with a registered default set, the
default comes first and exactly once, followed by the other names in order;
with a default set that is absent from the namespace, it fails with the
missing-default error. -/
theorem list_available_spec (registry : RegistryNS) (d : String) :
    list_available registry none = .ok (registry.map Prod.fst) ∧
    ((registry.map Prod.fst).contains d = true →
      list_available registry (some d) =
        .ok (d :: (registry.map Prod.fst).filter (fun k => k ≠ d)) ∧
      d ∉ (registry.map Prod.fst).filter (fun k => k ≠ d)) ∧
    ((registry.map Prod.fst).contains d = false →
      list_available registry (some d) = .error (.missingDefault d)) := by
  have hval : list_available registry (some d) =
      if (registry.map Prod.fst).contains d then
        .ok (d :: (registry.map Prod.fst).filter (fun k => k ≠ d))
      else .error (.missingDefault d) := rfl
  refine ⟨rfl, ?_, ?_⟩
  · intro h
    refine ⟨?_, by simp⟩
    rw [hval]
    simp only [h]
    simp
  · intro h
    rw [hval]
    simp only [h]
    simp

/-- Witness for C5: namespace `[a, b]` with default `"a"` (registered) and
default `"x"` (absent). -/
theorem list_available_spec_witness :
    (([("a", implV), ("b", implW)] : RegistryNS).map Prod.fst).contains "a" =
      true ∧
    list_available [("a", implV), ("b", implW)] (some "a") =
      .ok ("a" :: (([("a", implV), ("b", implW)] : RegistryNS).map
        Prod.fst).filter (fun k => k ≠ "a")) ∧
    (([("a", implV), ("b", implW)] : RegistryNS).map Prod.fst).contains "x" =
      false ∧
    list_available [("a", implV), ("b", implW)] (some "x") =
      .error (.missingDefault "x") := by
  have h1 := (list_available_spec [("a", implV), ("b", implW)] "a").2.1
    (by decide)
  have h2 := (list_available_spec [("a", implV), ("b", implW)] "x").2.2
    (by decide)
  exact ⟨by decide, h1.1, by decide, h2⟩

/-- C7: when a hook raises during registration, the exception propagates (the
result is the hook's exception) but the entry was already stored: afterwards
the name is registered and `by_name` returns the new implementation. -/
theorem register_hook_failure_spec (env : Env) (cls : Value) (name : String)
    (override : Bool) (hooks defaultHooks : List Hook) (registry : RegistryNS)
    (impl : Value) (hid : Nat) (msg : String)
    (h : (register env cls name override hooks defaultHooks registry impl).result =
      .error (.hookExc hid msg)) :
    (register env cls name override hooks defaultHooks registry impl).registry =
      nsSet registry name impl ∧
    is_registered
      (register env cls name override hooks defaultHooks registry impl).registry
      name = true ∧
    (by_name env cls
      (register env cls name override hooks defaultHooks registry impl).registry
      name).result = .ok impl := by
  have hcommit :
      (register env cls name override hooks defaultHooks registry impl).registry =
        nsSet registry name impl := by
    by_cases hc : (!(env.isclass impl) || !(env.issubclass impl cls)) = true
    · simp [register, hc] at h
    · cases hl : nsLookup registry name with
      | some existing =>
        by_cases ho : override = true
        · have hreg : register env cls name override hooks defaultHooks registry
              impl = commit name defaultHooks hooks registry impl
                ["Overriding " ++ name ++ " in " ++ cls.pyName ++ " registry"] := by
            simp [register, hc, hl, ho]
          rw [hreg, commit_registry]
        · simp only [Bool.not_eq_true] at ho
          simp [register, hc, hl, ho] at h
      | none =>
        have hreg : register env cls name override hooks defaultHooks registry
            impl = commit name defaultHooks hooks registry impl [] := by
          simp [register, hc, hl]
        rw [hreg, commit_registry]
  rw [hcommit]
  refine ⟨rfl, ?_, ?_⟩
  · simp [is_registered]
  · simp [by_name]

/-- A hook that always raises. -/
def hookRaise : Hook := ⟨7, fun _ _ => some "boom"⟩

/-- Witness for C7: a registration whose only hook raises; the exception is
the result, yet the entry is committed. -/
theorem register_hook_failure_spec_witness :
    (register envAll baseV "impl" false [hookRaise] [] [] implV).result =
      .error (.hookExc 7 "boom") ∧
    ((register envAll baseV "impl" false [hookRaise] [] [] implV).registry =
      nsSet [] "impl" implV ∧
     is_registered
       (register envAll baseV "impl" false [hookRaise] [] [] implV).registry
       "impl" = true ∧
     (by_name envAll baseV
       (register envAll baseV "impl" false [hookRaise] [] [] implV).registry
       "impl").result = .ok implV) :=
  ⟨rfl, register_hook_failure_spec envAll baseV "impl" false [hookRaise] [] []
    implV 7 "boom" rfl⟩

/-- C8 counterexample: a base type with an empty namespace but with a default
implementation set: `list_available` raises the missing-default error instead
of returning an empty sequence. -/
theorem list_available_empty_default_counterexample :
    list_available [] (some "x") = .error (.missingDefault "x") ∧
    list_available [] (some "x") ≠ .ok [] := by
  refine ⟨rfl, ?_⟩
  have hv : list_available [] (some "x") = .error (.missingDefault "x") := rfl
  rw [hv]
  intro h
  exact Except.noConfusion h

/-- C8 (amended): a base type with no registered entries and no default
implementation set gets the empty sequence from `list_available`. -/
theorem list_available_empty_spec :
    list_available [] none = .ok ([] : List String) := rfl

theorem commit_ok_hookCalls (name : String) (defaultHooks hooks : List Hook)
    (registry : RegistryNS) (subclass : Value) (warnings : List String)
    (r : Value)
    (h : (commit name defaultHooks hooks registry subclass warnings).result =
      .ok r) :
    (commit name defaultHooks hooks registry subclass warnings).hookCalls =
      (defaultHooks ++ hooks).map Hook.id := by
  rcases hm : (runHooks (defaultHooks ++ hooks) subclass name).2 with _ | exc
  · simp [commit, hm, runHooks_none_calls _ _ _ hm]
  · simp [commit, hm] at h

/-- C9: `by_name` never invokes a hook, on any path (in particular not when
memoizing a fallback resolution); `register`, by contrast, invokes every
applicable hook (default hooks then per-call hooks, in order) on every
successful registration. -/
theorem fallback_memoization_no_hooks :
    (∀ (env : Env) (cls : Value) (registry : RegistryNS) (name : String),
      (by_name env cls registry name).hookCalls = []) ∧
    (∀ (env : Env) (cls : Value) (name : String) (override : Bool)
      (hooks defaultHooks : List Hook) (registry : RegistryNS) (impl r : Value),
      (register env cls name override hooks defaultHooks registry impl).result =
        .ok r →
      (register env cls name override hooks defaultHooks registry impl).hookCalls =
        (defaultHooks ++ hooks).map Hook.id) := by
  constructor
  · intro env cls registry name
    cases hl : nsLookup registry name with
    | some v => simp [by_name, hl]
    | none =>
      by_cases hdot : containsDot name = true
      · cases hmod : env.importModule (submodOf name) with
        | none => simp [by_name, hl, hdot, hmod]
        | some modAttrs =>
          cases hattr : nsLookup modAttrs (classNameOf name) with
          | none => simp [by_name, hl, hdot, hmod, hattr]
          | some m =>
            by_cases hc : (!(env.isclass m) || !(env.issubclass m cls)) = true
            · simp [by_name, hl, hdot, hmod, hattr, hc]
            · simp [by_name, hl, hdot, hmod, hattr, hc]
      · simp only [Bool.not_eq_true] at hdot
        simp [by_name, hl, hdot]
  · intro env cls name override hooks defaultHooks registry impl r h
    by_cases hc : (!(env.isclass impl) || !(env.issubclass impl cls)) = true
    · simp [register, hc] at h
    · cases hl : nsLookup registry name with
      | some existing =>
        by_cases ho : override = true
        · have hreg : register env cls name override hooks defaultHooks registry
              impl = commit name defaultHooks hooks registry impl
                ["Overriding " ++ name ++ " in " ++ cls.pyName ++ " registry"] := by
            simp [register, hc, hl, ho]
          rw [hreg] at h ⊢
          exact commit_ok_hookCalls _ _ _ _ _ _ _ h
        · simp only [Bool.not_eq_true] at ho
          simp [register, hc, hl, ho] at h
      | none =>
        have hreg : register env cls name override hooks defaultHooks registry
            impl = commit name defaultHooks hooks registry impl [] := by
          simp [register, hc, hl]
        rw [hreg] at h ⊢
        exact commit_ok_hookCalls _ _ _ _ _ _ _ h

/-- A hook that records nothing and returns normally (id 1). -/
def hookA : Hook := ⟨1, fun _ _ => none⟩

/-- A hook that records nothing and returns normally (id 2). -/
def hookB : Hook := ⟨2, fun _ _ => none⟩

/-- Witness for C9: the memoizing fallback lookup of C2's input invokes no
hook, while a successful registration with default hook `1` and per-call
hook `2` invokes exactly `[1, 2]`. -/
theorem fallback_memoization_no_hooks_witness :
    (by_name envMod baseV [] "pkg.mod.Impl").hookCalls = [] ∧
    (register envAll baseV "impl" false [hookB] [hookA] [] implV).result =
      .ok implV ∧
    (register envAll baseV "impl" false [hookB] [hookA] [] implV).hookCalls =
      [1, 2] := by
  refine ⟨fallback_memoization_no_hooks.1 envMod baseV [] "pkg.mod.Impl", rfl, ?_⟩
  have h := fallback_memoization_no_hooks.2 envAll baseV "impl" false [hookB]
    [hookA] [] implV implV rfl
  simpa [hookA, hookB] using h

end Registrable
